import Mathlib

/-
Shallow embedding of the annotation engine of the learn-chinese repository.

JS strings are modelled as `List Char` (all characters involved are BMP
code points, so one JS UTF-16 code unit corresponds to one `Char`).
Sources embedded here:
  - src/js/api.js        (processText, mockProcessTextResponse, getMockPinyin,
                          getMockTranslation)
  - src/server/app.js    (app.post handler, processChineseText, getPinyin,
                          getTranslation, checkIfChengyu)
-/

namespace LearnChinese

/-- Whitespace characters removed by JavaScript `String.prototype.trim`
(the ASCII/Latin-1 part, which covers every input considered here). -/
def isJsWhitespace (c : Char) : Bool :=
  c == ' ' || c == '\t' || c == '\n' || c == '\r' ||
  c == '\x0B' || c == '\x0C' || c == ' '

/-- JavaScript `s.trim()`: drop leading and trailing whitespace. -/
def trim (s : List Char) : List Char :=
  ((s.dropWhile isJsWhitespace).reverse.dropWhile isJsWhitespace).reverse

/-- JavaScript `text.split(/\n+/)` (src/js/api.js line 40, src/server/app.js
line 38): split on each maximal run of newline characters (so no interior
empty pieces, but a leading or trailing run still contributes an empty piece,
and the empty string splits to `[""]`).  Implemented as a structural right
fold: a non-newline character is prepended to the first piece of the split of
the rest; a newline that continues a run changes nothing; a newline that
starts a run opens a fresh empty piece.  The result is never `[]`, so
`headD []`/`tail` read and drop its first piece. -/
def splitNlRuns : List Char → List (List Char)
  | [] => [[]]
  | c :: rest =>
    if c = '\n' then
      if rest.headD ' ' = '\n' then splitNlRuns rest
      else [] :: splitNlRuns rest
    else
      (c :: (splitNlRuns rest).headD []) :: (splitNlRuns rest).tail

/-- The paragraph list of both pipelines:
`text.split(/\n+/).filter(p => p.trim().length > 0)`.
Note the kept pieces are NOT trimmed; `trim` is used only for the emptiness
test. -/
def segmentText (text : List Char) : List (List Char) :=
  (splitNlRuns text).filter (fun p => decide (0 < (trim p).length))

/-- The module-level `mockPinyinMap` of src/js/api.js. -/
def mockPinyinMap : List (Char × String) :=
  [('我', "wǒ"), ('你', "nǐ"), ('他', "tā"), ('她', "tā"), ('们', "men"),
   ('好', "hǎo"), ('一', "yī"), ('二', "èr"), ('三', "sān"), ('中', "zhōng"),
   ('国', "guó"), ('人', "rén"), ('大', "dà"), ('小', "xiǎo"), ('上', "shàng"),
   ('下', "xià"), ('不', "bù"), ('是', "shì"), ('了', "le")]

/-- `getMockPinyin` (src/js/api.js): `mockPinyinMap[char] || 'pinyin'`.
All map values are non-empty strings, so the JS falsy-fallback coincides with
an `Option.getD` over the lookup. -/
def getMockPinyin (char : Char) : String :=
  (mockPinyinMap.lookup char).getD ("pinyin")

/-- The module-level `mockTranslationMap` of src/js/api.js. -/
def mockTranslationMap : List (Char × String) :=
  [('我', "I/me"), ('你', "you"), ('他', "he"), ('她', "she"),
   ('们', "plural marker"), ('好', "good"), ('一', "one"), ('二', "two"),
   ('三', "three"), ('中', "middle"), ('国', "country"), ('人', "person"),
   ('大', "big"), ('小', "small"), ('上', "up/above"), ('下', "down/below"),
   ('不', "no/not"), ('是', "is/am/are"), ('了', "past tense marker")]

/-- `getMockTranslation` (src/js/api.js): `mockTranslationMap[char] || 'translation'`. -/
def getMockTranslation (char : Char) : String :=
  (mockTranslationMap.lookup char).getD ("translation")

/-- One entry of the `segments` array built by `mockProcessTextResponse`.
A plain (non-chengyu) entry has no `chengyuComplete` property in JS,
modelled as `none`. -/
structure Segment where
  text : Char
  pinyin : String
  translation : String
  isChengyu : Bool
  chengyuComplete : Option (List Char)
deriving DecidableEq

/-- The `sampleChengyu` list shared by src/js/api.js and src/server/app.js. -/
def sampleChengyu : List (List Char) :=
  [("一心一意".toList), ("不可思议".toList), ("入乡随俗".toList),
   ("自言自语".toList), ("四面八方".toList), ("千变万化".toList),
   ("无忧无虑".toList), ("不知不觉".toList)]

/-- Does `cy` occur in `para` starting at index `i`? -/
def matchesAt (cy para : List Char) (i : Nat) : Bool :=
  (para.drop i).take cy.length == cy

/-- All start indices found by the `indexOf`/`indexOf(cy, index + 1)` loop of
`mockProcessTextResponse` (src/js/api.js lines 59-64): every occurrence,
including ones overlapping a previous occurrence of the same entry.  (The JS
loop does not terminate on an empty catalog entry; all entries used by the
program are non-empty, and for those this enumeration is exact.) -/
def occurrences (cy para : List Char) : List Nat :=
  (List.range para.length).filter (matchesAt cy para)

/-- The `charInfo` object pushed for character `i` of the chengyu occurrence
at `startIdx` (src/js/api.js lines 69-76).  `chengyuComplete` is `cy` exactly
on the last character (`i === cy.length - 1 ? cy : null`). -/
def mkChengyuSeg (para cy : List Char) (startIdx i : Nat) : Segment :=
  { text := para.getD (startIdx + i) '?'
    pinyin := getMockPinyin (para.getD (startIdx + i) '?')
    translation := getMockTranslation (para.getD (startIdx + i) '?')
    isChengyu := true
    chengyuComplete := if i = cy.length - 1 then some cy else none }

/-- The inner `for (let i = 0; i < cy.length; i++)` loop body for one
occurrence. -/
def chengyuTokensAt (para cy : List Char) (startIdx : Nat) : List Segment :=
  (List.range cy.length).map (fun i => mkChengyuSeg para cy startIdx i)

/-- The whole `sampleChengyu.forEach(cy => ...)` pass of
`mockProcessTextResponse` (src/js/api.js lines 56-80), over an explicit
catalog: for every catalog entry in declaration order, for every occurrence in
ascending index order, push one segment per character of the occurrence.
There is no overlap tracking between occurrences. -/
def chengyuPass (catalog : List (List Char)) (para : List Char) : List Segment :=
  (catalog.map (fun cy =>
    ((occurrences cy para).map (fun startIdx => chengyuTokensAt para cy startIdx)).flatten)).flatten

/-- The `charInfo` object pushed by the plain-character loop
(src/js/api.js lines 89-94). -/
def mkPlainSeg (c : Char) : Segment :=
  { text := c
    pinyin := getMockPinyin c
    translation := getMockTranslation c
    isChengyu := false
    chengyuComplete := none }

/-- The skip test of the plain-character loop (src/js/api.js line 86):
`segments.some(s => s.text === paragraph[i] && s.isChengyu)` — keyed on the
character VALUE, not its position. -/
def plainSkip (segs : List Segment) (c : Char) : Bool :=
  segs.any (fun s => s.text == c && s.isChengyu)

/-- The `for (let i = 0; i < paragraph.length; i++)` loop of
`mockProcessTextResponse` (src/js/api.js lines 84-96), threading the growing
`segments` array. -/
def plainLoop : List Char → List Segment → List Segment
  | [], segs => segs
  | c :: rest, segs =>
    if plainSkip segs c then plainLoop rest segs
    else plainLoop rest (segs ++ [mkPlainSeg c])

/-- JavaScript `paragraph.indexOf(ch)` for a character known to occur in the
paragraph: the index of the FIRST occurrence of that character value.
(`List.findIdx` returns `para.length` when absent where JS returns `-1`; every
segment text sorted by the program occurs in its paragraph, so the two agree
on all keys actually compared.) -/
def firstIndexOf (para : List Char) (c : Char) : Nat :=
  para.findIdx (fun d => d == c)

/-- Stable insertion used to model `Array.prototype.sort` (stable per
ES2019): the inserted element goes after all already-placed elements of
smaller-or-equal key. -/
def insertByKey (key : Segment → Nat) (x : Segment) : List Segment → List Segment
  | [] => [x]
  | y :: l => if key y ≤ key x then y :: insertByKey key x l else x :: y :: l

/-- Stable sort by a numeric key, modelling
`segments.sort((a, b) => paragraph.indexOf(a.text) - paragraph.indexOf(b.text))`. -/
def sortByKey (key : Segment → Nat) (l : List Segment) : List Segment :=
  l.foldl (fun acc x => insertByKey key x acc) []

/-- The complete per-paragraph segment construction of
`mockProcessTextResponse` (src/js/api.js lines 51-101), with the chengyu
catalog as an explicit parameter (the source closes over `sampleChengyu`). -/
def mockParagraphSegments (catalog : List (List Char)) (para : List Char) : List Segment :=
  sortByKey (fun s => firstIndexOf para s.text) (plainLoop para (chengyuPass catalog para))

/-- One element of the `paragraphs` array returned by the mock pipeline. -/
structure MockParagraph where
  text : List Char
  segments : List Segment
deriving DecidableEq

/-- The object returned by `mockProcessTextResponse`. -/
structure MockResponse where
  original : List Char
  paragraphs : List MockParagraph
deriving DecidableEq

/-- `mockProcessTextResponse` (src/js/api.js lines 38-108). -/
def mockProcessTextResponse (text : List Char) : MockResponse :=
  { original := text
    paragraphs := (segmentText text).map (fun paragraph =>
      { text := paragraph
        segments := mockParagraphSegments sampleChengyu paragraph }) }

/-- `checkIfChengyu(text, position)` (src/server/app.js lines 138-161):
true iff some sample chengyu STARTS at `position`
(`text.substring(position, position + chengyu.length) === chengyu`). -/
def checkIfChengyu (text : List Char) (position : Nat) : Bool :=
  sampleChengyu.any (fun chengyu =>
    decide (position + chengyu.length ≤ text.length) &&
      ((text.drop position).take chengyu.length == chengyu))

/-- Server `getPinyin` (src/server/app.js lines 89-105): both the normal path
and the catch path return the fixed placeholder. -/
def getPinyin (_text : Char) : String :=
  "pīnyīn"

/-- Server `getTranslation` (src/server/app.js lines 111-131): both paths
return the fixed placeholder. -/
def getTranslation (_text : Char) : String :=
  "translation"

/-- One entry of the `segments` array built by the server `processChineseText`
(no `chengyuComplete` property on the server side). -/
structure ServerSegment where
  text : Char
  pinyin : String
  translation : String
  isChengyu : Bool
deriving DecidableEq

/-- One element of the server `paragraphs` array. -/
structure ServerParagraph where
  text : List Char
  segments : List ServerSegment
deriving DecidableEq

/-- The object returned by the server `processChineseText`. -/
structure ServerResponse where
  original : List Char
  paragraphs : List ServerParagraph
deriving DecidableEq

/-- The per-paragraph character loop of the server `processChineseText`
(src/server/app.js lines 52-70). -/
def serverSegments (paragraph : List Char) : List ServerSegment :=
  (List.range paragraph.length).map (fun i =>
    { text := paragraph.getD i '?'
      pinyin := getPinyin (paragraph.getD i '?')
      translation := getTranslation (paragraph.getD i '?')
      isChengyu := checkIfChengyu paragraph i })

/-- Server `processChineseText` (src/server/app.js lines 37-84).  The awaited
lookups are deterministic placeholders, so the `Promise.all` pipeline is a
pure function of the text. -/
def processChineseText (text : List Char) : ServerResponse :=
  { original := text
    paragraphs := (segmentText text).map (fun paragraph =>
      { text := paragraph
        segments := serverSegments paragraph }) }

/-- Outcome of the `/api/process` endpoint (src/server/app.js lines 14-30):
either the processed data, or the 400 `'No text provided'` rejection. -/
inductive ApiResult where
  | ok (data : ServerResponse)
  | badRequest
deriving DecidableEq

/-- The `app.post('/api/process')` handler body for a string-typed `text`
field: `if (!text) ... 400`; a JS string is falsy exactly when it is empty. -/
def handleProcess (text : List Char) : ApiResult :=
  if text.isEmpty then ApiResult.badRequest else ApiResult.ok (processChineseText text)

/-- What the client `fetch('/api/process')` produced: `failure` covers a
rejected fetch (or a `response.json()` that throws), otherwise a response with
its `ok` flag and parsed payload. -/
inductive FetchOutcome where
  | failure
  | response (ok : Bool) (data : MockResponse)

/-- Client `processText` (src/js/api.js lines 8-32): a throwing fetch, a
non-ok response, or a throwing json parse all land in the catch block, which
returns `mockProcessTextResponse(text)`; an ok response returns its payload. -/
def processText (fetch : FetchOutcome) (text : List Char) : MockResponse :=
  match fetch with
  | FetchOutcome.failure => mockProcessTextResponse text
  | FetchOutcome.response ok data =>
      if ok then data else mockProcessTextResponse text

/-- The request did not come back ok: the fetch threw, or the response has
`ok = false`. -/
def fetchNotOk : FetchOutcome → Prop
  | FetchOutcome.failure => True
  | FetchOutcome.response ok _ => ok = false

/- ------------------------------------------------------------------ -/
/- Helper lemmas                                                       -/
/- ------------------------------------------------------------------ -/

/-- Every piece produced by `splitNlRuns` is all-whitespace when the input
is. -/
theorem splitNlRuns_all_ws (s : List Char) :
    s.all isJsWhitespace = true →
    ∀ p ∈ splitNlRuns s, p.all isJsWhitespace = true := by
  induction s with
  | nil =>
    intro _ p hp
    simp only [splitNlRuns, List.mem_singleton] at hp
    subst hp
    rfl
  | cons c rest ih =>
    intro hs p hp
    rw [List.all_cons, Bool.and_eq_true] at hs
    simp only [splitNlRuns] at hp
    by_cases hc : c = '\n'
    · rw [if_pos hc] at hp
      by_cases hh : rest.headD ' ' = '\n'
      · rw [if_pos hh] at hp
        exact ih hs.2 p hp
      · rw [if_neg hh] at hp
        rcases List.mem_cons.mp hp with h1 | h2
        · subst h1; rfl
        · exact ih hs.2 p h2
    · rw [if_neg hc] at hp
      rcases hr : splitNlRuns rest with _ | ⟨q, ps⟩
      · rw [hr] at hp
        simp only [List.headD_nil, List.tail_nil, List.mem_singleton] at hp
        subst hp
        simp [hs.1]
      · rw [hr] at hp
        simp only [List.headD_cons, List.tail_cons] at hp
        rcases List.mem_cons.mp hp with h1 | h2
        · subst h1
          rw [List.all_cons, Bool.and_eq_true]
          exact ⟨hs.1, ih hs.2 q (by rw [hr]; exact List.mem_cons_self q ps)⟩
        · exact ih hs.2 p (by rw [hr]; exact List.mem_cons_of_mem q h2)

/-- No piece produced by `splitNlRuns` contains a newline. -/
theorem splitNlRuns_no_nl (s : List Char) :
    ∀ p ∈ splitNlRuns s, ∀ c ∈ p, c ≠ '\n' := by
  induction s with
  | nil =>
    intro p hp
    simp only [splitNlRuns, List.mem_singleton] at hp
    subst hp
    intro c hc
    simp at hc
  | cons c rest ih =>
    intro p hp
    simp only [splitNlRuns] at hp
    by_cases hc : c = '\n'
    · rw [if_pos hc] at hp
      by_cases hh : rest.headD ' ' = '\n'
      · rw [if_pos hh] at hp
        exact ih p hp
      · rw [if_neg hh] at hp
        rcases List.mem_cons.mp hp with h1 | h2
        · subst h1
          intro d hd
          simp at hd
        · exact ih p h2
    · rw [if_neg hc] at hp
      rcases hr : splitNlRuns rest with _ | ⟨q, ps⟩
      · rw [hr] at hp
        simp only [List.headD_nil, List.tail_nil, List.mem_singleton] at hp
        subst hp
        intro d hd
        rw [List.mem_singleton.mp hd]
        exact hc
      · rw [hr] at hp
        simp only [List.headD_cons, List.tail_cons] at hp
        rcases List.mem_cons.mp hp with h1 | h2
        · subst h1
          intro d hd
          rcases List.mem_cons.mp hd with rfl | hd2
          · exact hc
          · exact ih q (by rw [hr]; exact List.mem_cons_self q ps) d hd2
        · exact ih p (by rw [hr]; exact List.mem_cons_of_mem q h2)

/-- Trimming an all-whitespace string gives the empty string. -/
theorem trim_eq_nil_of_all_ws (p : List Char) (h : p.all isJsWhitespace = true) :
    trim p = [] := by
  unfold trim
  have h1 : p.dropWhile isJsWhitespace = [] := by
    rw [List.dropWhile_eq_nil_iff]
    intro x hx
    exact List.all_eq_true.mp h x hx
  rw [h1]
  simp

/-- An all-whitespace input yields no paragraphs. -/
theorem segmentText_eq_nil_of_all_ws (text : List Char)
    (h : text.all isJsWhitespace = true) :
    segmentText text = [] := by
  rw [segmentText, List.filter_eq_nil_iff]
  intro p hp
  rw [trim_eq_nil_of_all_ws p (splitNlRuns_all_ws text h p hp)]
  simp

/-- Membership through the stable insertion step. -/
theorem mem_insertByKey (key : Segment → Nat) (a x : Segment) (l : List Segment) :
    x ∈ insertByKey key a l ↔ x = a ∨ x ∈ l := by
  induction l with
  | nil => simp [insertByKey]
  | cons y ys ih =>
    unfold insertByKey
    split
    · rw [List.mem_cons, ih, List.mem_cons]
      tauto
    · simp only [List.mem_cons]

/-- The stable sort modelling `Array.prototype.sort` neither adds nor removes
segments. -/
theorem mem_sortByKey (key : Segment → Nat) (l : List Segment) (x : Segment) :
    x ∈ sortByKey key l ↔ x ∈ l := by
  suffices h : ∀ acc, x ∈ List.foldl (fun acc y => insertByKey key y acc) acc l ↔
      x ∈ acc ∨ x ∈ l by
    simpa [sortByKey] using h []
  induction l with
  | nil => intro acc; simp
  | cons y ys ih =>
    intro acc
    simp only [List.foldl_cons]
    rw [ih (insertByKey key y acc), mem_insertByKey]
    simp only [List.mem_cons]
    tauto

/-- The plain-character loop, started on `segs` extended by any non-chengyu
entries, appends exactly one plain segment per character whose VALUE is not
among the chengyu-flagged entries of `segs`. -/
theorem plainLoop_append (cs : List Char) (segs extra : List Segment)
    (hextra : ∀ p ∈ extra, p.isChengyu = false) :
    plainLoop cs (segs ++ extra) =
      (segs ++ extra) ++ (cs.filter (fun c => !(plainSkip segs c))).map mkPlainSeg := by
  induction cs generalizing extra with
  | nil => simp [plainLoop]
  | cons c rest ih =>
    have hskip : plainSkip (segs ++ extra) c = plainSkip segs c := by
      unfold plainSkip
      rw [List.any_append]
      have hx : extra.any (fun s => s.text == c && s.isChengyu) = false := by
        rw [List.any_eq_false]
        intro s hsm
        simp [hextra s hsm]
      rw [hx, Bool.or_false]
    show (if plainSkip (segs ++ extra) c then plainLoop rest (segs ++ extra)
          else plainLoop rest ((segs ++ extra) ++ [mkPlainSeg c])) = _
    rw [hskip]
    by_cases hc : plainSkip segs c = true
    · rw [if_pos hc, ih extra hextra, List.filter_cons]
      simp [hc]
    · have hc' : plainSkip segs c = false := Bool.eq_false_iff.mpr hc
      have hx : ∀ p ∈ extra ++ [mkPlainSeg c], p.isChengyu = false := by
        intro p hp
        rcases List.mem_append.mp hp with h1 | h2
        · exact hextra p h1
        · rw [List.mem_singleton.mp h2]
          rfl
      rw [if_neg (by simp [hc']), List.append_assoc segs extra [mkPlainSeg c],
        ih (extra ++ [mkPlainSeg c]) hx, List.filter_cons]
      simp [hc']

/-- Closed form of the plain-character loop. -/
theorem plainLoop_eq (cs : List Char) (segs : List Segment) :
    plainLoop cs segs =
      segs ++ (cs.filter (fun c => !(plainSkip segs c))).map mkPlainSeg := by
  have h := plainLoop_append cs segs [] (by intro p hp; simp at hp)
  simpa using h

/-- Every segment emitted by the chengyu pass carries the pinyin and
translation of its own character. -/
theorem chengyuPass_fields (catalog : List (List Char)) (para : List Char)
    (s : Segment) (h : s ∈ chengyuPass catalog para) :
    s.pinyin = getMockPinyin s.text ∧ s.translation = getMockTranslation s.text := by
  rw [chengyuPass, List.mem_flatten] at h
  obtain ⟨l, hl, hs⟩ := h
  rw [List.mem_map] at hl
  obtain ⟨cy, _, rfl⟩ := hl
  rw [List.mem_flatten] at hs
  obtain ⟨l2, hl2, hs2⟩ := hs
  rw [List.mem_map] at hl2
  obtain ⟨st, _, rfl⟩ := hl2
  rw [chengyuTokensAt, List.mem_map] at hs2
  obtain ⟨i, _, rfl⟩ := hs2
  exact ⟨rfl, rfl⟩

/- ------------------------------------------------------------------ -/
/- Claim theorems                                                      -/
/- ------------------------------------------------------------------ -/

/-- Claim C1 (code_bug evidence).  On the single-paragraph input 人不是人,
whose character 人 repeats, the mock pipeline keeps the paragraph text intact
but returns the four tokens in order 人,人,不,是: concatenating `token.text`
gives 人人不是, not the original 人不是人, so the round-trip invariant fails
on the code (the final sort keys each token by the FIRST index of its
character value). -/
theorem c1_roundtrip_violation :
    (mockProcessTextResponse (("人不是人".toList))).paragraphs.map MockParagraph.text
        = [("人不是人".toList)] ∧
    (mockProcessTextResponse (("人不是人".toList))).paragraphs.map
        (fun p => p.segments.map Segment.text)
        = [("人人不是".toList)] ∧
    ("人人不是".toList) ≠ ("人不是人".toList) := by
  refine ⟨by decide, by decide, by decide⟩

/-- Claim C2 (code_bug evidence).  With the catalog {一心一意, 心一意不} over
the 5-character paragraph 一心一意不, the two idiom occurrences are at
indices 0 and 1 (spans 0..3 and 1..4 intersect), yet the code emits chengyu
tokens for BOTH occurrences: 8 tokens for 5 positions, so the characters at
positions 1-3 each appear in two tokens and two accepted spans overlap. -/
theorem c2_double_processing :
    occurrences (("一心一意".toList)) (("一心一意不".toList)) = [0] ∧
    occurrences (("心一意不".toList)) (("一心一意不".toList)) = [1] ∧
    (mockParagraphSegments [("一心一意".toList), ("心一意不".toList)]
        (("一心一意不".toList))).map Segment.text
      = ("一一一心心意意不".toList) ∧
    (("一心一意不".toList)).length = 5 := by
  refine ⟨by decide, by decide, by decide, by decide⟩

/-- Claim C3 (code_bug evidence).  With the catalog {一心, 一心一意} over the
paragraph 一心一意, both candidates start at index 0; the claimed greedy
leftmost-longest policy accepts only 一心一意 (4 tokens).  The code has no
overlap resolution: it emits tokens for BOTH candidates (6 tokens for a
4-character paragraph), and both completed idiom strings appear in the
output. -/
theorem c3_overlap_accepted :
    (mockParagraphSegments [("一心".toList), ("一心一意".toList)]
        (("一心一意".toList))).map Segment.text = ("一一一心心意".toList) ∧
    (mockParagraphSegments [("一心".toList), ("一心一意".toList)]
        (("一心一意".toList))).filterMap Segment.chengyuComplete
      = [("一心".toList), ("一心一意".toList)] := by
  refine ⟨by decide, by decide⟩

/-- Claim C4 (code_bug evidence).  The server marks only the FIRST character
of a matched idiom: for the paragraph 一心一意 (which is exactly the sample
chengyu 一心一意), `checkIfChengyu` is true at position 0 and false at the
non-initial positions 1-3, so the emitted flags are
[true, false, false, false] — non-initial members are NOT flagged. -/
theorem c4_only_first_position_flagged :
    (serverSegments (("一心一意".toList))).map ServerSegment.isChengyu
      = [true, false, false, false] ∧
    checkIfChengyu (("一心一意".toList)) 1 = false := by
  refine ⟨by decide, by decide⟩

/-- Claim C5 counterexample.  The input consisting of a space followed by 好
is kept as the single paragraph [' ', 好] — with its leading space — although
its trimmed form is [好]: kept paragraphs are NOT trimmed slices. -/
theorem c5_untrimmed_paragraph :
    segmentText [' ', '好'] = [[' ', '好']] ∧ trim [' ', '好'] ≠ [' ', '好'] := by
  refine ⟨by decide, by decide⟩

/-- Claim C5 as amended.  The segmenter splits on runs of newlines, keeps the
raw (untrimmed) pieces in order (the kept list is a sublist of the split),
keeps exactly the pieces that are not empty or whitespace-only, and no kept
piece contains a newline; `trim` is used only for the emptiness test. -/
theorem c5_segmentation (raw : List Char) :
    List.Sublist (segmentText raw) (splitNlRuns raw) ∧
    (∀ p ∈ segmentText raw, 0 < (trim p).length ∧ ∀ c ∈ p, c ≠ '\n') ∧
    (∀ p ∈ splitNlRuns raw, 0 < (trim p).length → p ∈ segmentText raw) := by
  refine ⟨List.filter_sublist _, ?_, ?_⟩
  · intro p hp
    simp only [segmentText, List.mem_filter] at hp
    refine ⟨by simpa using hp.2, ?_⟩
    exact splitNlRuns_no_nl raw p hp.1
  · intro p hp htrim
    simp only [segmentText, List.mem_filter]
    exact ⟨hp, by simpa using htrim⟩

/-- Witness for `c5_segmentation` at a concrete input. -/
theorem c5_segmentation_witness :
    List.Sublist (segmentText [' ', '好', '\n', '好']) (splitNlRuns [' ', '好', '\n', '好']) :=
  (c5_segmentation [' ', '好', '\n', '好']).1

/-- Claim C6 counterexample.  The empty string is an input consisting only of
whitespace, yet the `/api/process` handler rejects it with the 400
`'No text provided'` error instead of returning a zero-paragraph result. -/
theorem c6_empty_string_rejected :
    handleProcess [] = ApiResult.badRequest ∧
    ([] : List Char).all isJsWhitespace = true :=
  ⟨rfl, rfl⟩

/-- Claim C6 as amended.  For every whitespace-only input, both annotation
functions return a result with zero paragraphs (they are total, so no error
is possible), and the HTTP handler also returns that zero-paragraph result —
except on the empty string, which it rejects with a 400 error before
annotating. -/
theorem c6_blank_input (text : List Char) (h : text.all isJsWhitespace = true) :
    (mockProcessTextResponse text).paragraphs = [] ∧
    (processChineseText text).paragraphs = [] ∧
    (text ≠ [] → handleProcess text = ApiResult.ok (processChineseText text)) := by
  have hseg := segmentText_eq_nil_of_all_ws text h
  refine ⟨?_, ?_, ?_⟩
  · show (segmentText text).map _ = []
    rw [hseg]
    rfl
  · show (segmentText text).map _ = []
    rw [hseg]
    rfl
  · intro hne
    have hemp : text.isEmpty = false := by
      cases text with
      | nil => exact absurd rfl hne
      | cons a l => rfl
    simp [handleProcess, hemp]

/-- Witness for `c6_blank_input` at a concrete input. -/
theorem c6_blank_input_witness :
    (mockProcessTextResponse [' ', '\n']).paragraphs = [] ∧
    (processChineseText [' ', '\n']).paragraphs = [] ∧
    ([' ', '\n'] ≠ ([] : List Char) →
      handleProcess [' ', '\n'] = ApiResult.ok (processChineseText [' ', '\n'])) :=
  c6_blank_input [' ', '\n'] (by decide)

/-- Claim C7.  The mock pipeline is a pure function of the input text: it
returns the input unchanged in `original`, and annotating that returned text
again yields a structurally identical response (same paragraphs, same tokens,
same order and content).  Determinism is intrinsic to the embedded code: it
consults only its module-level constant maps and catalog. -/
theorem c7_idempotent_annotation (text : List Char) :
    (mockProcessTextResponse text).original = text ∧
    mockProcessTextResponse ((mockProcessTextResponse text).original)
      = mockProcessTextResponse text :=
  ⟨rfl, rfl⟩

/-- Claim C8.  Every segment the mock pipeline emits carries exactly
`getMockPinyin`/`getMockTranslation` of its OWN character — so a lookup miss
(no map entry) degrades only that token to the placeholder `'pinyin'` /
`'translation'`, leaves every other token untouched, and the (total)
document-level function never aborts. -/
theorem c8_lookup_isolation (catalog : List (List Char)) (para : List Char)
    (s : Segment) (hs : s ∈ mockParagraphSegments catalog para) :
    s.pinyin = getMockPinyin s.text ∧ s.translation = getMockTranslation s.text ∧
    (mockPinyinMap.lookup s.text = none → s.pinyin = "pinyin") ∧
    (mockTranslationMap.lookup s.text = none → s.translation = "translation") := by
  have hfld : s.pinyin = getMockPinyin s.text ∧
      s.translation = getMockTranslation s.text := by
    rw [mockParagraphSegments, mem_sortByKey, plainLoop_eq, List.mem_append] at hs
    rcases hs with h1 | h2
    · exact chengyuPass_fields catalog para s h1
    · rw [List.mem_map] at h2
      obtain ⟨c, _, rfl⟩ := h2
      exact ⟨rfl, rfl⟩
  refine ⟨hfld.1, hfld.2, ?_, ?_⟩
  · intro hnone
    rw [hfld.1]
    simp [getMockPinyin, hnone]
  · intro hnone
    rw [hfld.2]
    simp [getMockTranslation, hnone]

/-- Witness for `c8_lookup_isolation`: the character 猫 has no map entry, and
its (unique) token in the paragraph 猫 falls back to both placeholders. -/
theorem c8_lookup_isolation_witness :
    (mkPlainSeg '猫').pinyin = getMockPinyin (mkPlainSeg '猫').text ∧
    (mkPlainSeg '猫').translation = getMockTranslation (mkPlainSeg '猫').text ∧
    (mockPinyinMap.lookup (mkPlainSeg '猫').text = none →
      (mkPlainSeg '猫').pinyin = "pinyin") ∧
    (mockTranslationMap.lookup (mkPlainSeg '猫').text = none →
      (mkPlainSeg '猫').translation = "translation") :=
  c8_lookup_isolation [] ['猫'] (mkPlainSeg '猫') (by decide)

/-- Claim C9.  The plain-character pass appends exactly one non-idiom token
for each paragraph position whose character VALUE does not occur among the
chengyu-flagged segments collected before the pass — membership is decided by
character value (`plainSkip`), not by position. -/
theorem c9_value_keyed_plain_pass (catalog : List (List Char)) (para : List Char) :
    plainLoop para (chengyuPass catalog para) =
      chengyuPass catalog para ++
        (para.filter (fun c => !(plainSkip (chengyuPass catalog para) c))).map mkPlainSeg :=
  plainLoop_eq para (chengyuPass catalog para)

/-- Claim C10.  Whenever the fetch fails or the response is not ok, the
client `processText` returns `mockProcessTextResponse` of the same text; it
is a total function, so it always resolves with a result and never
propagates an error. -/
theorem c10_client_fallback (fetch : FetchOutcome) (text : List Char)
    (h : fetchNotOk fetch) :
    processText fetch text = mockProcessTextResponse text := by
  cases fetch with
  | failure => rfl
  | response ok data =>
    have hok : ok = false := h
    simp [processText, hok]

/-- Witness for `c10_client_fallback` at a concrete input. -/
theorem c10_client_fallback_witness :
    processText FetchOutcome.failure ['好'] = mockProcessTextResponse ['好'] :=
  c10_client_fallback FetchOutcome.failure ['好'] trivial

end LearnChinese
